import Mathlib

/-!
Shallow embedding of the NEAR sample lottery contract
(`src/contract/src/contract.ts`) and proofs about its specification.

The contract imports `FeeStrategy` from `./fee-strategies`, `Lottery` from
`./lottery` and `ONE_NEAR` from `./utils`; those three files are not part of
the sources, so the corresponding definitions below are modelled from the
specification text and are marked as such in their doc comments.  Everything
else is translated directly from `contract.ts`.

Host-supplied data (signer account id, predecessor account id, current
account id, attached deposit, the lottery randomness outcome) is passed to
each operation as an explicit argument.  Machine integers (`u128` / JS
`bigint`) are modelled as `Nat`; the conversion `BigInt(Number(x))` that the
contract applies to the attached deposit is modelled exactly by `f64round`,
IEEE-754 double rounding (round to nearest, ties to even) of a natural
number.  A failed `assert` aborts the NEAR transaction with no state change,
so every operation returns `Except Err ...` and an error carries no
post-state.
-/

/-- Modelled from the spec: `./utils` is missing from the sources.  The
base currency unit, one NEAR in yoctoNEAR. -/
def ONE_NEAR : Nat := 10 ^ 24

/-- Modelled from the spec: `./fee-strategies` is missing from the sources.
The named fee-strategy variants the spec lists (flat, linear, quadratic). -/
inductive StrategyType where
  | flat
  | linear
  | quadratic
deriving DecidableEq, Repr

/-- Modelled from the spec: `./fee-strategies` is missing from the sources.
A fee strategy holds its variant (`strategyType`), which the contract reads
back via `get_fee_strategy`. -/
structure FeeStrategy where
  strategyType : StrategyType
deriving DecidableEq, Repr

/-- Modelled from the spec: `./fee-strategies` is missing from the sources.
`calculate(enrolledCount, baseUnit)`; the reference rule is quadratic,
`fee = baseUnit * enrolledCount^2`; flat and linear are the other named
variants. -/
def FeeStrategy.calculate (f : FeeStrategy) (enrolledCount baseUnit : Nat) : Nat :=
  match f.strategyType with
  | .flat => baseUnit
  | .linear => baseUnit * enrolledCount
  | .quadratic => baseUnit * enrolledCount ^ 2

/-- Modelled from the spec: `./lottery` is missing from the sources.  The
lottery configuration holds the configured win chance; the chance is a JS
number in (0, 1], modelled as a rational.  The win/lose draw itself consumes
host randomness, so it enters the embedding as a `Bool` argument of `play`. -/
structure Lottery where
  chance : ℚ
deriving DecidableEq, Repr

/-- Modelled from the spec: `./lottery` is missing from the sources.
`configure(chance)` sets the win probability and rejects values outside
(0, 1] with `InvalidConfiguration`. -/
def Lottery.configure (chance : ℚ) : Option Lottery :=
  if 0 < chance ∧ chance ≤ 1 then some ⟨chance⟩ else none

/-- Modelled from the spec: `./lottery` is missing from the sources.  The
spec does not state the default win chance of `new Lottery()`; no claim
depends on its value, we use 1/5. -/
def Lottery.init : Lottery := ⟨mkRat 1 5⟩

deriving instance DecidableEq for Except

/-- The error outcomes of the contract's asserts (§7 of the spec), with the
data their messages carry: `GameInactive` reports the winner and the pot,
`InsufficientFee` reports the player count and the required fee. -/
inductive Err where
  | GameInactive (winner : String) (pot : Nat)
  | InsufficientFee (playerCount : Nat) (fee : Nat)
  | Unauthorized
  | InvalidConfiguration
deriving DecidableEq, Repr

/-- `BigInt(Number(x))` for a non-negative integer `x`: round `x` to the
nearest IEEE-754 double (round to nearest, ties to even) and convert back.
`f64exp fuel n` counts how often `n` must be halved to fall below `2^53`
(the fuel only bounds the recursion; `f64round` passes `n` itself, which is
always enough). -/
def f64exp : Nat → Nat → Nat
  | 0, _ => 0
  | fuel + 1, n => if n < 2 ^ 53 then 0 else f64exp fuel (n / 2) + 1

/-- Round a natural number to the nearest IEEE-754 double, ties to even:
values below `2^53` are exact; above, the value is rounded to the nearest
multiple of `2^e` where `n / 2^e` has 53 bits.  This is what the contract's
`BigInt(Number(near.attachedDeposit()))` computes. -/
def f64round (n : Nat) : Nat :=
  if n < 2 ^ 53 then n
  else
    let e := f64exp n n
    let q := n / 2 ^ e
    let r := n % 2 ^ e
    let half := 2 ^ (e - 1)
    (if half < r ∨ (r = half ∧ q % 2 = 1) then q + 1 else q) * 2 ^ e

/-- The persistent state of the contract: the eight fields of `class
Contract`.  `players` is an `UnorderedSet` in the source (a set of unique
account ids, membership-tested, with `len`, `set`, `clear`), modelled as a
`Finset String`.  `winner` and `lastPlayed` start empty. -/
structure Contract where
  owner : String
  winner : String
  lastPlayed : String
  active : Bool
  pot : Nat
  lottery : Lottery
  feeStrategy : FeeStrategy
  players : Finset String
deriving DecidableEq

/-- `constructor({ owner })` together with the field initializers of the
class: `active = true`, `pot = ONE_NEAR`, default lottery and fee strategy
(the spec names quadratic as the default rule), empty player set. -/
def Contract.init (owner : String) : Contract :=
  { owner := owner
    winner := ""
    lastPlayed := ""
    active := true
    pot := ONE_NEAR
    lottery := Lottery.init
    feeStrategy := ⟨.quadratic⟩
    players := ∅ }

/-- `private fee()`: `FeeStrategy.from(this.feeStrategy).calculate(this.players.len(), ONE_NEAR)`. -/
def Contract.fee (s : Contract) : Nat :=
  s.feeStrategy.calculate s.players.card ONE_NEAR

/-- The payout sequence a winning `play` schedules: a promise batch on the
winner's account with a transfer of the pot, continued by the
`on_payout_complete` callback addressed to the contract itself. -/
structure Payout where
  beneficiary : String
  amount : Nat
deriving DecidableEq, Repr

/-- The tail of `play` after the fee handling: `this.lastPlayed = signer`,
then the lottery draw; on a win set `winner = signer` and, if `winner` is a
non-empty string, schedule the payout of the current pot to the winner. -/
def Contract.playFinish (s : Contract) (signer : String) (win : Bool) :
    Contract × Option Payout :=
  let s1 := { s with lastPlayed := signer }
  if win then
    let s2 := { s1 with winner := signer }
    if 0 < s2.winner.length then (s2, some ⟨s2.winner, s2.pot⟩) else (s2, none)
  else (s1, none)

/-- `play()`.  Host inputs: `signer = near.signerAccountId()`, the attached
deposit (a `u128`), and the outcome `win` of the lottery draw.  The deposit
is read as `BigInt(Number(near.attachedDeposit()))`, i.e. `f64round`.
Order of the source: the `active` assert, then the membership test; a
returning player must have `deposit >= fee` (else the `InsufficientFee`
assert aborts) and the deposit is added to the pot; a first-time player is
inserted into `players` with no fee check and no pot change. -/
def Contract.play (s : Contract) (signer : String) (attachedDeposit : Nat)
    (win : Bool) : Except Err (Contract × Option Payout) :=
  if s.active then
    let deposit := f64round attachedDeposit
    if signer ∈ s.players then
      if deposit < s.fee then
        .error (.InsufficientFee s.players.card s.fee)
      else
        .ok (Contract.playFinish { s with pot := s.pot + deposit } signer win)
    else
      .ok (Contract.playFinish { s with players := insert signer s.players } signer win)
  else
    .error (.GameInactive s.winner s.pot)

/-- `configure_lottery({ chance })`: `assertSelf()` (the predecessor account
must equal the current account), then `Lottery.configure`, returning `true`. -/
def Contract.configure_lottery (s : Contract) (predecessor current : String)
    (chance : ℚ) : Except Err (Contract × Bool) :=
  if predecessor = current then
    match Lottery.configure chance with
    | some l => .ok ({ s with lottery := l }, true)
    | none => .error .InvalidConfiguration
  else
    .error .Unauthorized

/-- `configure_fee({ strategy })`: `assertSelf()`, then replace the fee
strategy with `new FeeStrategy(strategy)`, returning `true`. -/
def Contract.configure_fee (s : Contract) (predecessor current : String)
    (strategy : StrategyType) : Except Err (Contract × Bool) :=
  if predecessor = current then
    .ok ({ s with feeStrategy := ⟨strategy⟩ }, true)
  else
    .error .Unauthorized

/-- `reset()`: `assertSelf()`, then clear `players`, empty `winner` and
`lastPlayed`, `pot = ONE_NEAR`, `active = true`. -/
def Contract.reset (s : Contract) (predecessor current : String) :
    Except Err Contract :=
  if predecessor = current then
    .ok { s with
          players := ∅
          winner := ""
          lastPlayed := ""
          pot := ONE_NEAR
          active := true }
  else
    .error .Unauthorized

/-- `on_payout_complete()`: `assertSelf()`, then `active = false`. -/
def Contract.on_payout_complete (s : Contract) (predecessor current : String) :
    Except Err Contract :=
  if predecessor = current then
    .ok { s with active := false }
  else
    .error .Unauthorized

/-! ## General lemmas about the operations -/

/-- Unfolding equation for `play`. -/
theorem Contract.play_eq (s : Contract) (c : String) (dep : Nat) (w : Bool) :
    s.play c dep w =
      if s.active then
        if c ∈ s.players then
          if f64round dep < s.fee then
            .error (.InsufficientFee s.players.card s.fee)
          else
            .ok (Contract.playFinish { s with pot := s.pot + f64round dep } c w)
        else
          .ok (Contract.playFinish { s with players := insert c s.players } c w)
      else
        .error (.GameInactive s.winner s.pot) := rfl

/-- The state component of `playFinish`: `lastPlayed` becomes the signer and,
on a win, so does `winner`; no other field moves. -/
theorem Contract.playFinish_fst (s : Contract) (c : String) (w : Bool) :
    (s.playFinish c w).1 =
      { s with lastPlayed := c, winner := if w then c else s.winner } := by
  cases w <;> by_cases hlen : 0 < c.length <;> simp [Contract.playFinish, hlen]

/-- The payout component of `playFinish`: a transfer of the pot to the signer
is scheduled exactly on a win by a signer with a non-empty account id. -/
theorem Contract.playFinish_snd (s : Contract) (c : String) (w : Bool) :
    (s.playFinish c w).2 =
      if w ∧ 0 < c.length then some ⟨c, s.pot⟩ else none := by
  cases w <;> by_cases hlen : 0 < c.length <;> simp [Contract.playFinish, hlen]

/-- Case analysis of a successful `play`: the game was active, and either the
signer was enrolled, the rounded deposit covered the fee and the deposit was
added to the pot, or the signer was new and was enrolled with no pot change. -/
theorem Contract.play_ok_elim {s : Contract} {c : String} {dep : Nat}
    {w : Bool} {s' : Contract} {p : Option Payout}
    (h : s.play c dep w = .ok (s', p)) :
    s.active = true ∧
      ((c ∈ s.players ∧ s.fee ≤ f64round dep ∧
          (s', p) = Contract.playFinish { s with pot := s.pot + f64round dep } c w) ∨
       (c ∉ s.players ∧
          (s', p) = Contract.playFinish { s with players := insert c s.players } c w)) := by
  rw [Contract.play_eq] at h
  by_cases ha : s.active = true
  · rw [if_pos ha] at h
    by_cases hm : c ∈ s.players
    · rw [if_pos hm] at h
      by_cases hlt : f64round dep < s.fee
      · rw [if_pos hlt] at h
        exact Except.noConfusion h
      · rw [if_neg hlt] at h
        exact ⟨ha, Or.inl ⟨hm, le_of_not_lt hlt, (Except.ok.inj h).symm⟩⟩
    · rw [if_neg hm] at h
      exact ⟨ha, Or.inr ⟨hm, (Except.ok.inj h).symm⟩⟩
  · rw [if_neg ha] at h
    exact Except.noConfusion h

/-- Case analysis of a failing `play`: either the game was inactive and the
error is `GameInactive` with the pre-state's winner and pot, or the signer
was enrolled with a rounded deposit below the fee and the error is
`InsufficientFee` with the pre-state's player count and fee. -/
theorem Contract.play_error_elim {s : Contract} {c : String} {dep : Nat}
    {w : Bool} {e : Err} (h : s.play c dep w = .error e) :
    (s.active = false ∧ e = .GameInactive s.winner s.pot) ∨
    (s.active = true ∧ c ∈ s.players ∧ f64round dep < s.fee ∧
      e = .InsufficientFee s.players.card s.fee) := by
  rw [Contract.play_eq] at h
  by_cases ha : s.active = true
  · rw [if_pos ha] at h
    by_cases hm : c ∈ s.players
    · rw [if_pos hm] at h
      by_cases hlt : f64round dep < s.fee
      · rw [if_pos hlt] at h
        exact Or.inr ⟨ha, hm, hlt, (Except.error.inj h).symm⟩
      · rw [if_neg hlt] at h
        exact Except.noConfusion h
    · rw [if_neg hm] at h
      exact Except.noConfusion h
  · rw [if_neg ha] at h
    exact Or.inl ⟨by simpa using ha, (Except.error.inj h).symm⟩

/-! ## Concrete states used by the counterexamples -/

/-- An active epoch in which `"alice"` has already won (a winning `play`
whose payout has not yet been confirmed): reachable from `Contract.init
"owner"` by the single winning play proved in `C2_counterexample`. -/
def C2midState : Contract :=
  { owner := "owner", winner := "alice", lastPlayed := "alice", active := true,
    pot := ONE_NEAR, lottery := Lottery.init, feeStrategy := ⟨.quadratic⟩,
    players := {"alice"} }

/-- The state after `"bob"` also wins while the payout to `"alice"` is still
pending. -/
def C2endState : Contract :=
  { C2midState with
    winner := "bob"
    lastPlayed := "bob"
    players := insert "bob" ({"alice"} : Finset String) }

/-- An active game in which `"alice"` is the only enrolled player, so the
quadratic fee for her next play is `ONE_NEAR * 1^2 = ONE_NEAR`. -/
def enrolledAlice : Contract :=
  { owner := "o", winner := "", lastPlayed := "", active := true,
    pot := ONE_NEAR, lottery := Lottery.init, feeStrategy := ⟨.quadratic⟩,
    players := {"alice"} }

/-! ## Claims -/

/-- C1, counterexample: in `Contract.init "alice"` the owner is `"alice"`,
yet `reset`, `configure_fee` and `configure_lottery` invoked by the owner
(predecessor `"alice"`, contract account `"lottery.near"`) all fail with
`Unauthorized`, while the non-owner caller `"lottery.near"` (the contract
account itself) succeeds: caller == owner is not the authorization
condition. -/
theorem C1_counterexample :
    (Contract.init "alice").owner = "alice" ∧
    ("lottery.near" : String) ≠ "alice" ∧
    (Contract.init "alice").reset "alice" "lottery.near" = .error .Unauthorized ∧
    (Contract.init "alice").configure_fee "alice" "lottery.near" .flat = .error .Unauthorized ∧
    (Contract.init "alice").configure_lottery "alice" "lottery.near" (mkRat 1 2) = .error .Unauthorized ∧
    (Contract.init "alice").reset "lottery.near" "lottery.near" = .ok (Contract.init "alice") := by
  decide

/-- C1, amended: the sole authorization condition of `reset`,
`configure_fee` and `configure_lottery` is predecessor == current account
(the contract itself, `assertSelf`); every other caller fails with
`Unauthorized` and mutates nothing, and the contract account's own calls
succeed (for `configure_lottery`, with a chance in (0, 1]). -/
theorem C1_admin_auth_is_self (s : Contract) (predecessor current : String)
    (chance : ℚ) (strategy : StrategyType) :
    (predecessor ≠ current →
      s.reset predecessor current = .error .Unauthorized ∧
      s.configure_fee predecessor current strategy = .error .Unauthorized ∧
      s.configure_lottery predecessor current chance = .error .Unauthorized) ∧
    (predecessor = current →
      s.reset predecessor current =
        .ok { s with players := ∅, winner := "", lastPlayed := "",
                     pot := ONE_NEAR, active := true } ∧
      s.configure_fee predecessor current strategy =
        .ok ({ s with feeStrategy := ⟨strategy⟩ }, true) ∧
      (0 < chance ∧ chance ≤ 1 →
        s.configure_lottery predecessor current chance =
          .ok ({ s with lottery := ⟨chance⟩ }, true))) := by
  constructor
  · intro hne
    refine ⟨?_, ?_, ?_⟩ <;>
      simp [Contract.reset, Contract.configure_fee, Contract.configure_lottery, hne]
  · intro heq
    refine ⟨?_, ?_, ?_⟩
    · simp [Contract.reset, heq]
    · simp [Contract.configure_fee, heq]
    · intro hv
      simp [Contract.configure_lottery, Lottery.configure, heq, hv]

/-- C1, witness for the amended theorem at a concrete non-self caller. -/
theorem C1_witness :
    ("alice" : String) ≠ "lottery.near" ∧
    (Contract.init "o").reset "alice" "lottery.near" = .error .Unauthorized := by
  refine ⟨by decide, ?_⟩
  exact ((C1_admin_auth_is_self (Contract.init "o") "alice" "lottery.near"
    (mkRat 1 2) .flat).1 (by decide)).1

/-- C2, counterexample: starting from a fresh game, a winning play by
`"alice"` sets `winner = "alice"` and leaves the game active; a second
winning play by `"bob"` in the same epoch (no reset in between) overwrites
`winner` with `"bob"`, so `winner` is assigned twice in one epoch. -/
theorem C2_counterexample :
    (Contract.init "owner").play "alice" 0 true =
      .ok (C2midState, some ⟨"alice", ONE_NEAR⟩) ∧
    C2midState.winner = "alice" ∧
    C2midState.active = true ∧
    C2midState.play "bob" 0 true = .ok (C2endState, some ⟨"bob", ONE_NEAR⟩) ∧
    C2endState.winner = "bob" ∧
    ("bob" : String) ≠ "alice" := by
  decide

/-- C2, amended: `winner` is stable only once the payout has been confirmed:
after `on_payout_complete` (which deactivates the game and does not touch
`winner`), every further `play` fails with `GameInactive`; while the game is
still active, however, each winning play sets `winner` to its caller, so a
second win before confirmation reassigns it. -/
theorem C2_amended_winner_stable_after_close (s : Contract) (current : String)
    (t : Contract) (h : s.on_payout_complete current current = .ok t) :
    t.winner = s.winner ∧ t.active = false ∧
    (∀ c dep w, t.play c dep w = .error (.GameInactive t.winner t.pot)) ∧
    (∀ u : Contract, ∀ c dep w, ∀ u' : Contract, ∀ p,
      u.play c dep w = .ok (u', p) → u'.winner = if w then c else u.winner) := by
  have ht : { s with active := false } = t := by
    simpa [Contract.on_payout_complete] using h
  subst ht
  refine ⟨rfl, rfl, ?_, ?_⟩
  · intro c dep w
    rw [Contract.play_eq]
    simp
  · intro u c dep w u' p hp
    obtain ⟨-, hcase⟩ := Contract.play_ok_elim hp
    rcases hcase with ⟨-, -, heq⟩ | ⟨-, heq⟩
    · have hu : u' = _ := congrArg Prod.fst heq
      rw [hu, Contract.playFinish_fst]
    · have hu : u' = _ := congrArg Prod.fst heq
      rw [hu, Contract.playFinish_fst]

/-- C2, witness for the amended theorem: a concrete post-confirmation state
rejects a further play. -/
theorem C2_witness :
    ({ Contract.init "o" with active := false } : Contract).play "p" 0 true =
      .error (.GameInactive "" ONE_NEAR) := by
  have h := C2_amended_winner_stable_after_close (Contract.init "o") "lot.near"
    { Contract.init "o" with active := false } (by decide)
  exact h.2.2.1 "p" 0 true

/-- C3: the claim fails on the code.  With `"alice"` enrolled as the only
player the quadratic fee is exactly `ONE_NEAR`; attaching exactly
`ONE_NEAR` (not strictly less than the fee) must succeed per the claim, but
the contract first converts the attached `u128` through a 64-bit float
(`BigInt(Number(near.attachedDeposit()))`), which rounds `10^24` down to
`999999999999999983222784 < ONE_NEAR`, so the call fails with
`InsufficientFee`. -/
theorem C3_exact_fee_rejected :
    enrolledAlice.fee = ONE_NEAR ∧
    ¬ (ONE_NEAR < enrolledAlice.fee) ∧
    f64round ONE_NEAR = 999999999999999983222784 ∧
    enrolledAlice.play "alice" ONE_NEAR false =
      .error (.InsufficientFee 1 ONE_NEAR) := by
  decide

/-- C4: the first play of a caller not yet enrolled never fails with
`InsufficientFee`, and when the game is active it succeeds, enrolls the
caller and leaves the pot unchanged, regardless of the attached value. -/
theorem C4_first_play_free (s : Contract) (c : String) (dep : Nat) (w : Bool)
    (hmem : c ∉ s.players) :
    (∀ n f, s.play c dep w ≠ .error (.InsufficientFee n f)) ∧
    (s.active = true →
      ∃ s' p, s.play c dep w = .ok (s', p) ∧
        s'.players = insert c s.players ∧ s'.pot = s.pot) := by
  constructor
  · intro n f hcontra
    rcases Contract.play_error_elim hcontra with ⟨-, he⟩ | ⟨-, hm, -, -⟩
    · exact Err.noConfusion he
    · exact hmem hm
  · intro ha
    refine ⟨(Contract.playFinish { s with players := insert c s.players } c w).1,
            (Contract.playFinish { s with players := insert c s.players } c w).2,
            ?_, ?_, ?_⟩
    · rw [Contract.play_eq, if_pos ha, if_neg hmem]
    · rw [Contract.playFinish_fst]
    · rw [Contract.playFinish_fst]

/-- C4, witness at a concrete fresh state with an attached value. -/
theorem C4_witness :
    ("alice" : String) ∉ (Contract.init "o").players ∧
    ∃ s' p, (Contract.init "o").play "alice" 7 false = .ok (s', p) ∧
      s'.players = insert "alice" (Contract.init "o").players ∧
      s'.pot = (Contract.init "o").pot := by
  refine ⟨by decide, ?_⟩
  exact (C4_first_play_free (Contract.init "o") "alice" 7 false (by decide)).2 rfl

/-- What `playFinish` produces on a win: the winner is the signer, no other
field of the state changes, and when the signer's account id is non-empty
the scheduled payout carries the full current pot addressed to the signer. -/
theorem Contract.playFinish_win_spec (base : Contract) (c : String)
    (s' : Contract) (p : Option Payout)
    (heq : (s', p) = base.playFinish c true) :
    s'.winner = c ∧ s'.active = base.active ∧ s'.pot = base.pot ∧
    (0 < c.length → p = some ⟨c, s'.pot⟩) := by
  have hs : s' = _ := congrArg Prod.fst heq
  have hp : p = _ := congrArg Prod.snd heq
  rw [Contract.playFinish_fst] at hs
  rw [Contract.playFinish_snd] at hp
  subst hs
  subst hp
  refine ⟨by simp, rfl, rfl, ?_⟩
  intro hlen
  simp [hlen]

/-- C5: a successful winning `play` sets `winner` to the caller, leaves the
game active, and (the caller's id being non-empty) schedules the transfer of
the full current pot to the caller with the `on_payout_complete`
confirmation; only when `on_payout_complete` then runs (as the contract
itself) does `active` become false, after which every `play` fails with
`GameInactive`. -/
theorem C5_win_schedules_payout (s : Contract) (c : String) (dep : Nat)
    (s' : Contract) (p : Option Payout)
    (h : s.play c dep true = .ok (s', p)) :
    s'.winner = c ∧ s'.active = true ∧
    (0 < c.length → p = some ⟨c, s'.pot⟩) ∧
    (∀ current, ∃ t : Contract,
      s'.on_payout_complete current current = .ok t ∧
      t.active = false ∧ t.winner = c ∧
      ∀ c2 dep2 w2, t.play c2 dep2 w2 = .error (.GameInactive t.winner t.pot)) := by
  obtain ⟨ha, hcase⟩ := Contract.play_ok_elim h
  have key : s'.winner = c ∧ s'.active = true ∧ (0 < c.length → p = some ⟨c, s'.pot⟩) := by
    rcases hcase with ⟨-, -, heq⟩ | ⟨-, heq⟩
    · obtain ⟨h1, h2, -, h4⟩ := Contract.playFinish_win_spec _ c s' p heq
      exact ⟨h1, h2.trans ha, h4⟩
    · obtain ⟨h1, h2, -, h4⟩ := Contract.playFinish_win_spec _ c s' p heq
      exact ⟨h1, h2.trans ha, h4⟩
  refine ⟨key.1, key.2.1, key.2.2, ?_⟩
  intro current
  refine ⟨{ s' with active := false }, ?_, rfl, key.1, ?_⟩
  · simp [Contract.on_payout_complete]
  · intro c2 dep2 w2
    rw [Contract.play_eq]
    simp

/-- C5, witness at the concrete winning play of `C2_counterexample`. -/
theorem C5_witness :
    ∃ t : Contract,
      C2midState.on_payout_complete "lot.near" "lot.near" = .ok t ∧
      t.active = false ∧ t.winner = "alice" ∧
      ∀ c2 dep2 w2, t.play c2 dep2 w2 = .error (.GameInactive t.winner t.pot) :=
  (C5_win_schedules_payout (Contract.init "owner") "alice" 0 C2midState
    (some ⟨"alice", ONE_NEAR⟩) (by decide)).2.2.2 "lot.near"

/-- C6: `on_payout_complete` requires predecessor == current account
(`assertSelf`): any other caller fails with `Unauthorized` (no state
change, the error carries no post-state); the contract itself sets
`active = false` and changes nothing else; and no other operation ever
turns `active` off — `play` preserves it, `reset` sets it to true, and the
two configuration calls leave it unchanged. -/
theorem C6_payout_complete_auth (s : Contract) (predecessor current : String) :
    (predecessor ≠ current →
      s.on_payout_complete predecessor current = .error .Unauthorized) ∧
    (predecessor = current →
      s.on_payout_complete predecessor current = .ok { s with active := false }) ∧
    (∀ c dep w s' p, s.play c dep w = .ok (s', p) → s'.active = s.active) ∧
    (∀ s', s.reset predecessor current = .ok s' → s'.active = true) ∧
    (∀ strategy r, s.configure_fee predecessor current strategy = .ok r →
      r.1.active = s.active) ∧
    (∀ chance r, s.configure_lottery predecessor current chance = .ok r →
      r.1.active = s.active) := by
  refine ⟨?_, ?_, ?_, ?_, ?_, ?_⟩
  · intro hne
    simp [Contract.on_payout_complete, hne]
  · intro heq
    simp [Contract.on_payout_complete, heq]
  · intro c dep w s' p hp
    obtain ⟨-, hcase⟩ := Contract.play_ok_elim hp
    rcases hcase with ⟨-, -, heq⟩ | ⟨-, heq⟩
    · have hu : s' = _ := congrArg Prod.fst heq
      rw [hu, Contract.playFinish_fst]
    · have hu : s' = _ := congrArg Prod.fst heq
      rw [hu, Contract.playFinish_fst]
  · intro s' hr
    unfold Contract.reset at hr
    by_cases hpc : predecessor = current
    · rw [if_pos hpc] at hr
      obtain rfl := Except.ok.inj hr
      rfl
    · rw [if_neg hpc] at hr
      exact Except.noConfusion hr
  · intro strategy r hr
    unfold Contract.configure_fee at hr
    by_cases hpc : predecessor = current
    · rw [if_pos hpc] at hr
      obtain rfl := Except.ok.inj hr
      rfl
    · rw [if_neg hpc] at hr
      exact Except.noConfusion hr
  · intro chance r hr
    unfold Contract.configure_lottery at hr
    by_cases hpc : predecessor = current
    · rw [if_pos hpc] at hr
      rcases hc : Lottery.configure chance with - | l
      · rw [hc] at hr
        exact Except.noConfusion hr
      · rw [hc] at hr
        obtain rfl := Except.ok.inj hr
        rfl
    · rw [if_neg hpc] at hr
      exact Except.noConfusion hr

/-- C6, witness: a concrete external caller is rejected. -/
theorem C6_witness :
    ("alice" : String) ≠ "lottery.near" ∧
    (Contract.init "o").on_payout_complete "alice" "lottery.near" =
      .error .Unauthorized := by
  refine ⟨by decide, ?_⟩
  exact (C6_payout_complete_auth (Contract.init "o") "alice" "lottery.near").1
    (by decide)

/-- C7: with `active = false`, `play` fails with `GameInactive` reporting
the winner and the pot; and every failure of `play` is one of the two
precondition asserts, whose payloads are computed from the unmutated
pre-state (the error carries no post-state: a failed assert aborts the
transaction with no mutation). -/
theorem C7_inactive_rejected_before_mutation (s : Contract) (c : String)
    (dep : Nat) (w : Bool) :
    (s.active = false → s.play c dep w = .error (.GameInactive s.winner s.pot)) ∧
    (∀ e, s.play c dep w = .error e →
      e = .GameInactive s.winner s.pot ∨
      (c ∈ s.players ∧ e = .InsufficientFee s.players.card s.fee)) := by
  constructor
  · intro ha
    rw [Contract.play_eq, ha]
    simp
  · intro e he
    rcases Contract.play_error_elim he with ⟨-, h1⟩ | ⟨-, hm, -, h2⟩
    · exact Or.inl h1
    · exact Or.inr ⟨hm, h2⟩

/-- C7, witness at a concrete inactive state. -/
theorem C7_witness :
    ({ Contract.init "o" with active := false } : Contract).play "q" 5 false =
      .error (.GameInactive "" ONE_NEAR) :=
  (C7_inactive_rejected_before_mutation
    { Contract.init "o" with active := false } "q" 5 false).1 rfl

/-- C8: the claim fails on the code.  A successful play by the enrolled
`"alice"` attaching `2 * ONE_NEAR` (2 NEAR, a u128 amount) increases the pot
by `BigInt(Number(2 * 10^24)) = 1999999999999999966445568`, not by the
attached `2000000000000000000000000`: the float round-trip loses the exact
integer amount. -/
theorem C8_pot_rounding_bug :
    f64round (2 * ONE_NEAR) = 1999999999999999966445568 ∧
    enrolledAlice.play "alice" (2 * ONE_NEAR) false =
      .ok ({ enrolledAlice with
             pot := ONE_NEAR + 1999999999999999966445568
             lastPlayed := "alice" }, none) ∧
    ONE_NEAR + 1999999999999999966445568 ≠ ONE_NEAR + 2 * ONE_NEAR := by
  decide

/-- C9: a `reset` that passes its authorization check clears `players`,
empties `winner` and `lastPlayed`, restores `pot` to the base unit, sets
`active = true`, and leaves `owner`, `feeStrategy` and `lottery` exactly as
they were. -/
theorem C9_reset_restores_epoch (s : Contract) (predecessor current : String)
    (h : predecessor = current) :
    s.reset predecessor current =
      .ok { owner := s.owner
            winner := ""
            lastPlayed := ""
            active := true
            pot := ONE_NEAR
            lottery := s.lottery
            feeStrategy := s.feeStrategy
            players := ∅ } := by
  simp [Contract.reset, h]

/-- C9, witness at a concrete state. -/
theorem C9_witness :
    (Contract.init "own").reset "lot.near" "lot.near" =
      .ok { owner := "own"
            winner := ""
            lastPlayed := ""
            active := true
            pot := ONE_NEAR
            lottery := Lottery.init
            feeStrategy := ⟨.quadratic⟩
            players := ∅ } :=
  C9_reset_restores_epoch (Contract.init "own") "lot.near" "lot.near" rfl

/-- A successful `play` never decreases the pot: a losing or winning play by
an enrolled player adds the (rounded) deposit, a first play leaves the pot
unchanged, and a win does not zero it. -/
theorem Contract.play_ok_pot_mono {s : Contract} {c : String} {dep : Nat}
    {w : Bool} {s' : Contract} {p : Option Payout}
    (h : s.play c dep w = .ok (s', p)) : s.pot ≤ s'.pot := by
  obtain ⟨-, hcase⟩ := Contract.play_ok_elim h
  rcases hcase with ⟨-, -, heq⟩ | ⟨-, heq⟩
  · have hu : s' = _ := congrArg Prod.fst heq
    rw [hu, Contract.playFinish_fst]
    exact Nat.le_add_right _ _
  · have hu : s' = _ := congrArg Prod.fst heq
    rw [hu, Contract.playFinish_fst]

/-- One successful invocation of any change method of the contract. -/
inductive Step : Contract → Contract → Prop where
  | play {s s' : Contract} (c : String) (dep : Nat) (w : Bool) (p : Option Payout) :
      s.play c dep w = .ok (s', p) → Step s s'
  | payout_complete {s s' : Contract} (predecessor current : String) :
      s.on_payout_complete predecessor current = .ok s' → Step s s'
  | game_reset {s s' : Contract} (predecessor current : String) :
      s.reset predecessor current = .ok s' → Step s s'
  | config_fee {s : Contract} (predecessor current : String)
      (strategy : StrategyType) (r : Contract × Bool) :
      s.configure_fee predecessor current strategy = .ok r → Step s r.1
  | config_lottery {s : Contract} (predecessor current : String)
      (chance : ℚ) (r : Contract × Bool) :
      s.configure_lottery predecessor current chance = .ok r → Step s r.1

/-- States reachable from a freshly constructed contract by successful
invocations of its change methods. -/
def Reachable (owner : String) (s : Contract) : Prop :=
  Relation.ReflTransGen Step (Contract.init owner) s

/-- Every step keeps the pot at or above the base unit. -/
theorem Step.pot_lb {s s' : Contract} (h : Step s s') (hlb : ONE_NEAR ≤ s.pot) :
    ONE_NEAR ≤ s'.pot := by
  cases h with
  | play c dep w p hp =>
      exact hlb.trans (Contract.play_ok_pot_mono hp)
  | payout_complete predecessor current hp =>
      unfold Contract.on_payout_complete at hp
      by_cases hpc : predecessor = current
      · rw [if_pos hpc] at hp
        obtain rfl := Except.ok.inj hp
        exact hlb
      · rw [if_neg hpc] at hp
        exact Except.noConfusion hp
  | game_reset predecessor current hp =>
      unfold Contract.reset at hp
      by_cases hpc : predecessor = current
      · rw [if_pos hpc] at hp
        obtain rfl := Except.ok.inj hp
        exact le_refl _
      · rw [if_neg hpc] at hp
        exact Except.noConfusion hp
  | config_fee predecessor current strategy r hp =>
      unfold Contract.configure_fee at hp
      by_cases hpc : predecessor = current
      · rw [if_pos hpc] at hp
        obtain rfl := Except.ok.inj hp
        exact hlb
      · rw [if_neg hpc] at hp
        exact Except.noConfusion hp
  | config_lottery predecessor current chance r hp =>
      unfold Contract.configure_lottery at hp
      by_cases hpc : predecessor = current
      · rw [if_pos hpc] at hp
        rcases hc : Lottery.configure chance with - | l
        · rw [hc] at hp
          exact Except.noConfusion hp
        · rw [hc] at hp
          obtain rfl := Except.ok.inj hp
          exact hlb
      · rw [if_neg hpc] at hp
        exact Except.noConfusion hp

/-- C10: `play` never decreases the pot (a winning play included — the pot
is not zeroed by the win), `on_payout_complete` leaves the pot unchanged,
the only pot-lowering operation is `reset`, which restores exactly the base
unit, and consequently every reachable state has `pot ≥ ONE_NEAR`. -/
theorem C10_pot_never_below_base (o : String) (s : Contract) :
    (∀ c dep w s' p, s.play c dep w = .ok (s', p) → s.pot ≤ s'.pot) ∧
    (∀ predecessor current s',
      s.on_payout_complete predecessor current = .ok s' → s'.pot = s.pot) ∧
    (∀ predecessor current s',
      s.reset predecessor current = .ok s' → s'.pot = ONE_NEAR) ∧
    (Reachable o s → ONE_NEAR ≤ s.pot) := by
  refine ⟨?_, ?_, ?_, ?_⟩
  · intro c dep w s' p hp
    exact Contract.play_ok_pot_mono hp
  · intro predecessor current s' hp
    unfold Contract.on_payout_complete at hp
    by_cases hpc : predecessor = current
    · rw [if_pos hpc] at hp
      obtain rfl := Except.ok.inj hp
      rfl
    · rw [if_neg hpc] at hp
      exact Except.noConfusion hp
  · intro predecessor current s' hp
    unfold Contract.reset at hp
    by_cases hpc : predecessor = current
    · rw [if_pos hpc] at hp
      obtain rfl := Except.ok.inj hp
      rfl
    · rw [if_neg hpc] at hp
      exact Except.noConfusion hp
  · intro hr
    induction hr with
    | refl => exact le_refl _
    | tail hab hbc ih => exact hbc.pot_lb ih

/-- C10, witness: the invariant instantiated at the initial state. -/
theorem C10_witness : ONE_NEAR ≤ (Contract.init "own.near").pot :=
  (C10_pot_never_below_base "own.near" (Contract.init "own.near")).2.2.2
    Relation.ReflTransGen.refl
